import Mathlib

/-!
Verification of the task-orchestration and progress-streaming core of
fast-mcp-pandoc (src/worker.py, src/server.py, src/models.py).

The Python code is shallowly embedded: blocking IO (file existence
checks, directory creation, the external pandoc engine) is an oracle
`Env`; each run of the worker body `_process_conversion` is a pure
function from the request and the oracle to the ordered list of
progress-callback invocations, the ordered list of filesystem/engine
operations, and the return-or-raise outcome. The per-connection SSE
loops of server.py are functions from a finite list of drain outcomes
(event arrived / 15s-or-60s timeout) to the list of emitted events.
-/

namespace FastMcpPandoc

instance {α β : Type} [DecidableEq α] [DecidableEq β] : DecidableEq (Except α β) := fun x y =>
  match x, y with
  | .ok a, .ok b =>
      if h : a = b then isTrue (h ▸ rfl) else isFalse (fun hh => h (Except.ok.inj hh))
  | .error a, .error b =>
      if h : a = b then isTrue (h ▸ rfl) else isFalse (fun hh => h (Except.error.inj hh))
  | .ok _, .error _ => isFalse (fun hh => Except.noConfusion hh)
  | .error _, .ok _ => isFalse (fun hh => Except.noConfusion hh)

/-- models.py `ConversionRequest`: optional contents / input_file,
formats, optional output_file. -/
structure ConversionRequest where
  contents : Option String
  input_file : Option String
  input_format : String
  output_format : String
  output_file : Option String
deriving Repr, DecidableEq

/-- Python truthiness of an `Optional[str]`: `None` and `""` are falsy.
This is the test the worker's `if request.input_file ...` branches use. -/
def truthy : Option String → Bool
  | none => false
  | some s => s ≠ ""

/-- Characters strictly before the last `/` of the list, or `none` when
the list has no `/`. -/
def beforeLastSlash : List Char → Option (List Char)
  | [] => none
  | c :: rest =>
    match beforeLastSlash rest with
    | some tail => some (c :: tail)
    | none => if c = '/' then some [] else none

/-- `os.path.dirname` restricted to forward-slash paths as the code uses
them: everything strictly before the final separator, `""` when there is
none. (For a path whose only separator is the leading one, such as
`"/a"`, Python returns `"/"` where this returns `""`; the worker only
tests the result for truthiness together with `os.path.exists`, and no
claim depends on that corner.) -/
def dirname (p : String) : String :=
  match beforeLastSlash p.toList with
  | some pre => ⟨pre⟩
  | none => ""

/-- Observable filesystem / engine operations of one worker run. -/
inductive FsOp where
  | createTemp (path : String) (content : String)
  | unlink (path : String)
  | makedirs (dir : String)
  | engineFile (input : String) (outputFormat : String) (outputFile : Option String)
  | engineText (text : Option String) (outputFormat : String) (inputFormat : String)
deriving Repr, DecidableEq

/-- Oracle for the worker's blocking IO: `os.path.exists`, `os.makedirs`
(`none` = success, `some e` = raised with message `e`),
`pypandoc.convert_file` / `convert_text` (`Except` error = engine raised),
the random stem `tempfile.NamedTemporaryFile` picks, and the outcome of
the `temp.write(request.contents)` into the just-created temp file
(`none` = the write succeeds; `some e` = the write raises with message
`e` — e.g. disk full — after the file already exists on disk). -/
structure Env where
  pathExists : String → Bool
  makedirsOk : String → Option String
  convert_file : String → String → Option String → Except String String
  convert_text : Option String → String → String → Except String String
  tempStem : String
  tempWriteOk : Option String

/-- One progress-callback invocation: (percentage, message). -/
abbrev Call := Int × String

/-- worker.py case 1 (`input_file and output_file`): existence check,
conditional makedirs, 50%-call, file→file engine call, 75%-call. -/
def case1 (env : Env) (inf outf fmt : String) :
    List Call × List FsOp × Except String String :=
  if env.pathExists inf = false then
    ([], [], .error ("Input file not found: " ++ inf))
  else
    let dir := dirname outf
    let mkOps : List FsOp × Option String :=
      if dir ≠ "" ∧ env.pathExists dir = false then
        ([FsOp.makedirs dir], env.makedirsOk dir)
      else ([], none)
    match mkOps with
    | (ops, some e) => ([], ops, .error e)
    | (ops, none) =>
      let c50 : List Call := [(50, "Converting " ++ inf ++ " to " ++ fmt)]
      let ops' := ops ++ [FsOp.engineFile inf fmt (some outf)]
      match env.convert_file inf fmt (some outf) with
      | .error e => (c50, ops', .error e)
      | .ok _ =>
        (c50 ++ [(75, "Finalizing conversion")], ops',
         .ok ("Content successfully converted and saved to: " ++ outf))

/-- worker.py case 2 (`input_file` only): existence check, 50%-call,
file→string engine call, 75%-call; result is the engine's string. -/
def case2 (env : Env) (inf fmt : String) :
    List Call × List FsOp × Except String String :=
  if env.pathExists inf = false then
    ([], [], .error ("Input file not found: " ++ inf))
  else
    let c50 : List Call := [(50, "Converting " ++ inf ++ " to " ++ fmt)]
    let ops := [FsOp.engineFile inf fmt none]
    match env.convert_file inf fmt none with
    | .error e => (c50, ops, .error e)
    | .ok res => (c50 ++ [(75, "Finalizing conversion")], ops, .ok res)

/-- worker.py case 3 (`contents and output_file`): materialize contents
to a NamedTemporaryFile (suffix `.input_format`) — the `with` block
creates the file on disk and then writes the contents into it — then
`try` makedirs + 50%-call + engine + 75%-call `finally` unlink the temp
file. If the write itself raises (worker.py:159-161), the exception
propagates to the outer `except` before the `try`/`finally` guarding
the unlink (worker.py:163-186) is ever entered, so no unlink happens
and the created temp file persists. Once the write has succeeded,
creation precedes the try, nothing removes the file in between, the
`if os.path.exists(temp_path)` guard in the finally is true on every
path, and the unlink is always recorded. -/
def case3 (env : Env) (contents fmt infmt outf : String) :
    List Call × List FsOp × Except String String :=
  let tempPath := env.tempStem ++ "." ++ infmt
  let created : List FsOp := [FsOp.createTemp tempPath contents]
  match env.tempWriteOk with
  | some e => ([], created, .error e)
  | none =>
    let dir := dirname outf
    let mkOps : List FsOp × Option String :=
      if dir ≠ "" ∧ env.pathExists dir = false then
        ([FsOp.makedirs dir], env.makedirsOk dir)
      else ([], none)
    match mkOps with
    | (ops, some e) => ([], created ++ ops ++ [FsOp.unlink tempPath], .error e)
    | (ops, none) =>
      let c50 : List Call := [(50, "Converting content to " ++ fmt)]
      let ops' := created ++ ops ++
        [FsOp.engineFile tempPath fmt (some outf), FsOp.unlink tempPath]
      match env.convert_file tempPath fmt (some outf) with
      | .error e => (c50, ops', .error e)
      | .ok _ =>
        (c50 ++ [(75, "Finalizing conversion")], ops',
         .ok ("Content successfully converted and saved to: " ++ outf))

/-- worker.py case 4 (default): 50%-call, string→string engine call,
75%-call; result is the engine's string. -/
def case4 (env : Env) (contents : Option String) (fmt infmt : String) :
    List Call × List FsOp × Except String String :=
  let c50 : List Call := [(50, "Converting content to " ++ fmt)]
  let ops := [FsOp.engineText contents fmt infmt]
  match env.convert_text contents fmt infmt with
  | .error e => (c50, ops, .error e)
  | .ok res => (c50 ++ [(75, "Finalizing conversion")], ops, .ok res)

/-- The four conversion modes of `_process_conversion`. -/
inductive Mode where
  | fileToFile | fileToString | stringToFile | stringToString
deriving Repr, DecidableEq

/-- The mode the worker's if/elif chain selects, with Python truthiness:
`input_file and output_file`, elif `input_file`, elif
`contents and output_file`, else string→string. -/
def selectMode (r : ConversionRequest) : Mode :=
  if truthy r.input_file && truthy r.output_file then .fileToFile
  else if truthy r.input_file then .fileToString
  else if truthy r.contents && truthy r.output_file then .stringToFile
  else .stringToString

/-- The `try` block of `WorkerPool._process_conversion`: the 0% and 25%
calls, the if/elif dispatch over the four cases, and on normal return
the 100% call. A `.error e` outcome is the exception (message `e`)
propagating to the `except` clause. -/
def process_conversion_try (env : Env) (r : ConversionRequest) :
    List Call × List FsOp × Except String String :=
  let pre : List Call :=
    [(0, "Starting conversion process"), (25, "Preparing document for conversion")]
  let body :=
    if truthy r.input_file && truthy r.output_file then
      case1 env (r.input_file.getD "") (r.output_file.getD "") r.output_format
    else if truthy r.input_file then
      case2 env (r.input_file.getD "") r.output_format
    else if truthy r.contents && truthy r.output_file then
      case3 env (r.contents.getD "") r.output_format r.input_format (r.output_file.getD "")
    else
      case4 env r.contents r.output_format r.input_format
  match body with
  | (cs, ops, .ok result) => (pre ++ cs ++ [(100, "Conversion complete")], ops, .ok result)
  | (cs, ops, .error e) => (pre ++ cs, ops, .error e)

/-- Outcome of one worker run: the callback trace, the operation trace,
and return value or raised `ValueError` message. -/
structure RunResult where
  calls : List Call
  ops : List FsOp
  result : Except String String
deriving Repr, DecidableEq

/-- `WorkerPool._process_conversion`: the try block wrapped by the
`except Exception` clause, which reports `(-1, "Error: <msg>")` through
the callback and re-raises `ValueError("Error during conversion: <msg>")`. -/
def process_conversion (env : Env) (r : ConversionRequest) : RunResult :=
  match process_conversion_try env r with
  | (cs, ops, .ok result) => ⟨cs, ops, .ok result⟩
  | (cs, ops, .error e) =>
      ⟨cs ++ [(-1, "Error: " ++ e)], ops, .error ("Error during conversion: " ++ e)⟩

/-! ## server.py: SSE event vocabulary (models.py event tags) and the
`/convert/stream` event_generator loop. -/

/-- The four SSE event shapes of models.py: `ConversionProgress`,
`ConversionComplete`, `ConversionError`, `ConversionHeartbeat`. -/
inductive SSEEvent where
  | progress (percentage : Int) (message : String)
  | complete (message : String) (result : String)
  | error (message : String) (err : String)
  | heartbeat (timestamp : String)
deriving Repr, DecidableEq

/-- server.py `progress_callback` (inside event_generator): percentage
100 → complete event, -1 → error event, otherwise progress event. -/
def callbackEvent (percentage : Int) (message : String) : SSEEvent :=
  if percentage = 100 then .complete "Conversion complete" message
  else if percentage = -1 then
    .error ("Error during conversion: " ++ message) message
  else .progress percentage message

/-- The loop's terminal check `event_data.get("event") in ["complete", "error"]`. -/
def isTerminalEvent : SSEEvent → Bool
  | .complete _ _ => true
  | .error _ _ => true
  | _ => false

/-- One iteration's outcome of `await asyncio.wait_for(queue.get(), timeout=15.0)`:
either an event was drained from the queue, or the 15s wait timed out
(`ts` is the `datetime.now().isoformat()` timestamp of that moment). -/
inductive DrainResult where
  | got (e : SSEEvent)
  | timeout (ts : String)
deriving Repr, DecidableEq

def isTimeoutDrain : DrainResult → Bool
  | .timeout _ => true
  | _ => false

/-- The synthetic inactivity-timeout error of event_generator. -/
def timeoutErrorEvent : SSEEvent :=
  .error "Conversion timed out after 5 minutes of inactivity" "timeout"

/-- The `while True` loop of event_generator, from a given value of
`heartbeat_timer`: a drained terminal event is yielded and breaks the
loop; a drained non-terminal event is yielded and the loop continues
with the timer unchanged; a 15s timeout yields a heartbeat, adds 15 to
the timer, and if the timer reached 300 yields the synthetic timeout
error and breaks. The finite drain list is the sequence of outcomes the
loop observes. -/
def event_generator_loop : List DrainResult → Nat → List SSEEvent
  | [], _ => []
  | .got e :: rest, timer =>
    if isTerminalEvent e then [e] else e :: event_generator_loop rest timer
  | .timeout ts :: rest, timer =>
    if 300 ≤ timer + 15 then [SSEEvent.heartbeat ts, timeoutErrorEvent]
    else SSEEvent.heartbeat ts :: event_generator_loop rest (timer + 15)

/-- The full event_generator output: the initial synthetic
`Progress{0, "Starting conversion..."}` followed by the loop started
with `heartbeat_timer = 0`. -/
def event_generator (drains : List DrainResult) : List SSEEvent :=
  SSEEvent.progress 0 "Starting conversion..." :: event_generator_loop drains 0

/-! ## server.py: the `active_connections` registry. -/

/-- The `active_connections` dict, as an association list from task id
to the queued events of that task's channel. -/
abbrev Registry := List (String × List SSEEvent)

/-- Python `task_id in active_connections`. -/
def containsId (reg : Registry) (id : String) : Bool :=
  reg.any (fun p => p.1 == id)

/-- Python `active_connections[task_id] = queue` (dict assignment). -/
def dictSet (reg : Registry) (id : String) (q : List SSEEvent) : Registry :=
  if containsId reg id then reg.map (fun p => if p.1 == id then (id, q) else p)
  else reg ++ [(id, q)]

/-- Python `del active_connections[task_id]`. -/
def dictDel (reg : Registry) (id : String) : Registry :=
  reg.filter (fun p => !(p.1 == id))

/-- The push performed by `progress_callback`:
`if event_data and task_id in active_connections:
active_connections[task_id].put(event_data)`. When no channel is
registered for the id, nothing is delivered and nothing is mutated (and
nothing is raised: the guard simply fails). -/
def pushEvent (reg : Registry) (id : String) (ev : SSEEvent) : Registry :=
  if containsId reg id then
    reg.map (fun p => if p.1 == id then (p.1, p.2 ++ [ev]) else p)
  else reg

/-- The generator's `finally` clause:
`if task_id in active_connections: del active_connections[task_id]`. -/
def cleanup_connection (reg : Registry) (id : String) : Registry :=
  if containsId reg id then dictDel reg id else reg

/-- All pushes a stream's worker performs for its own task id. -/
def pushAll (reg : Registry) (id : String) (evs : List SSEEvent) : Registry :=
  evs.foldl (fun r e => pushEvent r id e) reg

/-- One stream connection's whole effect on the registry:
`stream_conversion` inserts the fresh id, the body only pushes events
for that id (arbitrary list `pushed`, covering every loop outcome), and
the generator's `finally` clause — which Python runs on every exit path:
terminal event, synthetic timeout, internal exception, or generator
close on client disconnect — performs the guarded delete. -/
def stream_lifecycle (reg : Registry) (id : String) (pushed : List SSEEvent) : Registry :=
  cleanup_connection (pushAll (dictSet reg id []) id pushed) id

/-! ## server.py: the MCP `/sse` surface (`mcp_convert_generator`). -/

/-- models.py `MCPStatus`. -/
inductive McpStatus where
  | created | running | complete | error
deriving Repr, DecidableEq

/-- An MCP event, restricted to the fields the loop logic observes
(`status`) and the payloads that identify an event (`output`,
`error.message`). -/
structure McpEvent where
  status : McpStatus
  output : Option String
  errorMessage : Option String
deriving Repr, DecidableEq

/-- The loop's terminal check
`event_data.get("status") in [MCPStatus.COMPLETE, MCPStatus.ERROR]`. -/
def isMcpTerminal (e : McpEvent) : Bool :=
  e.status == .complete || e.status == .error

/-- The synthetic timeout event of `except asyncio.TimeoutError`. -/
def mcpTimeoutEvent : McpEvent :=
  ⟨.error, none, some "Conversion timed out after 60 seconds"⟩

/-- Outcome of one `await asyncio.wait_for(queue.get(), timeout=60.0)`:
an event arrives after `delay` seconds of waiting (the wait can only
return within its window, so `delay ≤ 60` in any real run), or the 60s
window elapses with no event. -/
inductive McpDrain where
  | got (e : McpEvent) (delay : Nat)
  | timedOut
deriving Repr, DecidableEq

/-- The `while True` loop of mcp_convert_generator, with emission
timestamps (seconds since the loop began at `now`). A drained terminal
event breaks the loop; a non-terminal event continues it — and the next
`wait_for` gets a fresh 60-second window; a `TimeoutError` is caught by
the `except` around the whole loop, which yields the synthetic timeout
event and falls out of the loop. -/
def mcp_convert_loop : List McpDrain → Nat → List (McpEvent × Nat)
  | [], _ => []
  | .got e d :: rest, now =>
    if isMcpTerminal e then [(e, now + d)]
    else (e, now + d) :: mcp_convert_loop rest (now + d)
  | .timedOut :: _, now => [(mcpTimeoutEvent, now + 60)]

/-- The full mcp_convert_generator output: the initial `created` event
(emitted at time 0, before the task is submitted) followed by the loop. -/
def mcp_convert_generator (drains : List McpDrain) : List (McpEvent × Nat) :=
  (⟨.created, some "Starting conversion", none⟩, 0) :: mcp_convert_loop drains 0

/-- Delays at which the drains of a run deliver: every `wait_for` with
`timeout=60.0` returns within 60 seconds or not at all. -/
def drainDelaysLe60 (drains : List McpDrain) : Bool :=
  drains.all (fun d => match d with | .got _ delay => delay ≤ 60 | .timedOut => true)

/-! ## worker.py: the pool's bounded concurrency
(`ThreadPoolExecutor(max_workers=N)`, default 4). The executor is a
dependency consumed by `WorkerPool.__init__`; its documented contract —
at most `max_workers` submitted callables run at once, each submitted
callable is eventually started when a slot frees and runs to completion
— is embedded as a small-step scheduler over the submitted task set. -/

/-- `WorkerPool.__init__`'s `max_workers` default, used by the global
`worker_pool = WorkerPool()`. -/
def defaultMaxWorkers : Nat := 4

/-- Scheduler state: tasks not yet started (FIFO), tasks whose
conversion body is executing on a slot, finished tasks. -/
structure PoolState where
  pending : List Nat
  running : List Nat
  done : List Nat
deriving Repr, DecidableEq

/-- One scheduler step: start the next pending task when a slot is free
(fewer than `N` bodies running), or a running body finishes. -/
inductive PoolStep (N : Nat) : PoolState → PoolState → Prop
  | start (t : Nat) (pending running done : List Nat) :
      running.length < N →
      PoolStep N ⟨t :: pending, running, done⟩ ⟨pending, t :: running, done⟩
  | finish (t : Nat) (pending running done : List Nat) :
      t ∈ running →
      PoolStep N ⟨pending, running, done⟩ ⟨pending, running.erase t, t :: done⟩

/-- `M` tasks submitted, none started. -/
def initPool (M : Nat) : PoolState := ⟨List.range M, [], []⟩

/-- States the scheduler can reach. -/
def PoolReachable (N : Nat) (s s' : PoolState) : Prop :=
  Relation.ReflTransGen (PoolStep N) s s'

/-- Decreasing measure: every scheduler step reduces it, so no infinite
execution exists and every maximal run ends in a stuck state. -/
def poolMeasure (s : PoolState) : Nat :=
  2 * s.pending.length + s.running.length

section Sanity

def envOkAll : Env :=
  { pathExists := fun _ => true
    makedirsOk := fun _ => none
    convert_file := fun _ _ _ => .ok "<h1>Hi</h1>"
    convert_text := fun c _ _ => .ok ("out:" ++ c.getD "")
    tempStem := "/tmp/tmpabc"
    tempWriteOk := none }

def reqSS : ConversionRequest :=
  ⟨some "# Hi", none, "markdown", "html", none⟩

example : (process_conversion envOkAll reqSS).calls.map Prod.fst =
    [0, 25, 50, 75, 100] := by decide

example : (process_conversion envOkAll reqSS).result = .ok "out:# Hi" := by decide

end Sanity

/-! ## Registry lemmas -/

lemma filter_push_map (id : String) (ev : SSEEvent) (l : Registry) :
    (l.map (fun p => if p.1 == id then (p.1, p.2 ++ [ev]) else p)).filter
      (fun p => !(p.1 == id)) = l.filter (fun p => !(p.1 == id)) := by
  rw [List.filter_map]
  have hfun : ((fun p => !(p.1 == id)) ∘
      (fun p : String × List SSEEvent => if p.1 == id then (p.1, p.2 ++ [ev]) else p)) =
      (fun p : String × List SSEEvent => !(p.1 == id)) := by
    funext p
    by_cases h : p.1 = id <;> simp [Function.comp, h]
  rw [hfun]
  have hid : ∀ a ∈ List.filter (fun p => !(p.1 == id)) l,
      (fun p : String × List SSEEvent =>
        if p.1 == id then (p.1, p.2 ++ [ev]) else p) a = a := by
    intro a ha
    have hmem := List.of_mem_filter ha
    simp only [Bool.not_eq_true', beq_eq_false_iff_ne, ne_eq] at hmem
    simp [hmem]
  rw [List.map_congr_left hid]
  simp

lemma dictDel_pushEvent (reg : Registry) (id : String) (ev : SSEEvent) :
    dictDel (pushEvent reg id ev) id = dictDel reg id := by
  unfold pushEvent
  split
  · exact filter_push_map id ev reg
  · rfl

lemma dictDel_pushAll (reg : Registry) (id : String) (evs : List SSEEvent) :
    dictDel (pushAll reg id evs) id = dictDel reg id := by
  induction evs generalizing reg with
  | nil => rfl
  | cons e rest ih =>
    show dictDel (pushAll (pushEvent reg id e) id rest) id = dictDel reg id
    rw [ih, dictDel_pushEvent]

lemma any_key_map (id id' : String) (ev : SSEEvent) (l : Registry) :
    (l.map (fun p => if p.1 == id then (p.1, p.2 ++ [ev]) else p)).any
      (fun p => p.1 == id') = l.any (fun p => p.1 == id') := by
  rw [List.any_map]
  have hfun : ((fun p => p.1 == id') ∘
      (fun p : String × List SSEEvent => if p.1 == id then (p.1, p.2 ++ [ev]) else p)) =
      (fun p : String × List SSEEvent => p.1 == id') := by
    funext p
    by_cases h : p.1 = id <;> simp [Function.comp, h]
  rw [hfun]

lemma containsId_pushEvent (reg : Registry) (id id' : String) (ev : SSEEvent) :
    containsId (pushEvent reg id ev) id' = containsId reg id' := by
  unfold pushEvent
  split
  · exact any_key_map id id' ev reg
  · rfl

lemma containsId_pushAll (reg : Registry) (id id' : String) (evs : List SSEEvent) :
    containsId (pushAll reg id evs) id' = containsId reg id' := by
  induction evs generalizing reg with
  | nil => rfl
  | cons e rest ih =>
    show containsId (pushAll (pushEvent reg id e) id rest) id' = containsId reg id'
    rw [ih, containsId_pushEvent]

lemma not_contains_all_ne (reg : Registry) (id : String)
    (h : containsId reg id = false) : ∀ p ∈ reg, (p.1 == id) = false := by
  intro p hp
  unfold containsId at h
  rw [List.any_eq_false] at h
  simpa using h p hp

lemma dictDel_of_not_contains (reg : Registry) (id : String)
    (h : containsId reg id = false) : dictDel reg id = reg := by
  unfold dictDel
  rw [List.filter_eq_self]
  intro p hp
  simp [not_contains_all_ne reg id h p hp]

/-- C6: a push for a task id with no registered channel — never
registered, or already deregistered — is a no-op: nothing is delivered,
the registry is unchanged (and the guard `task_id in active_connections`
simply evaluates false: no exception is raised). -/
theorem c6_push_unregistered_noop (reg : Registry) (id : String) (ev : SSEEvent)
    (h : containsId reg id = false) : pushEvent reg id ev = reg := by
  unfold pushEvent
  rw [h]
  simp

theorem c6_witness :
    containsId [("a", [SSEEvent.heartbeat "t"])] "b" = false ∧
    pushEvent [("a", [SSEEvent.heartbeat "t"])] "b" (SSEEvent.progress 50 "m") =
      [("a", [SSEEvent.heartbeat "t"])] :=
  ⟨by decide, c6_push_unregistered_noop _ _ _ (by decide)⟩

/-- C8: for a stream whose task id is fresh (UUID, not in the registry),
the insertion at stream start puts exactly one entry for the id in the
registry; the guarded delete of the generator's `finally` clause — run
on every exit path — restores the registry exactly; afterwards the id is
absent; and a second cleanup (duplicate terminal/disconnect race) is a
no-op, so removal happens at most once. -/
theorem c8_registry_lifecycle (reg : Registry) (id : String) (pushed : List SSEEvent)
    (h : containsId reg id = false) :
    ((dictSet reg id []).filter (fun p => p.1 == id)).length = 1 ∧
    stream_lifecycle reg id pushed = reg ∧
    containsId (stream_lifecycle reg id pushed) id = false ∧
    cleanup_connection (stream_lifecycle reg id pushed) id =
      stream_lifecycle reg id pushed := by
  have hset : dictSet reg id [] = reg ++ [(id, [])] := by
    unfold dictSet; rw [h]; simp
  have hfilter : reg.filter (fun p => p.1 == id) = [] := by
    rw [List.filter_eq_nil_iff]
    intro p hp
    simp [not_contains_all_ne reg id h p hp]
  have hcontains1 : containsId (reg ++ [(id, [])]) id = true := by
    unfold containsId
    simp [List.any_append]
  have hlife : stream_lifecycle reg id pushed = reg := by
    unfold stream_lifecycle cleanup_connection
    rw [hset, containsId_pushAll, hcontains1]
    simp only [if_true]
    rw [dictDel_pushAll]
    unfold dictDel
    rw [List.filter_append]
    have h1 : List.filter (fun p => !(p.1 == id)) [(id, ([] : List SSEEvent))] = [] := by
      simp
    rw [h1, List.append_nil]
    exact dictDel_of_not_contains reg id h
  refine ⟨?_, hlife, ?_, ?_⟩
  · rw [hset, List.filter_append, hfilter]
    simp
  · rw [hlife]; exact h
  · rw [hlife]
    unfold cleanup_connection
    rw [h]
    simp

theorem c8_witness :
    containsId [("other", [])] "id1" = false ∧
    (((dictSet [("other", [])] "id1" []).filter (fun p => p.1 == "id1")).length = 1 ∧
     stream_lifecycle [("other", [])] "id1" [SSEEvent.progress 25 "p"] = [("other", [])] ∧
     containsId (stream_lifecycle [("other", [])] "id1" [SSEEvent.progress 25 "p"]) "id1"
       = false ∧
     cleanup_connection (stream_lifecycle [("other", [])] "id1"
       [SSEEvent.progress 25 "p"]) "id1" =
       stream_lifecycle [("other", [])] "id1" [SSEEvent.progress 25 "p"]) :=
  ⟨by decide, c8_registry_lifecycle _ _ _ (by decide)⟩

/-! ## Plain-stream loop lemmas (event_generator) -/

lemma loop_replicate_timeouts (ts : String) (k : Nat) :
    ∀ (t : Nat) (rest : List DrainResult), t + 15 * k < 300 →
    event_generator_loop (List.replicate k (DrainResult.timeout ts) ++ rest) t =
      List.replicate k (SSEEvent.heartbeat ts) ++ event_generator_loop rest (t + 15 * k) := by
  induction k with
  | zero => intro t rest _; simp
  | succ n ih =>
    intro t rest h
    rw [List.replicate_succ, List.cons_append]
    show (if 300 ≤ t + 15 then [SSEEvent.heartbeat ts, timeoutErrorEvent]
      else SSEEvent.heartbeat ts ::
        event_generator_loop (List.replicate n (DrainResult.timeout ts) ++ rest) (t + 15)) = _
    have h15 : ¬ 300 ≤ t + 15 := by omega
    rw [if_neg h15, ih (t + 15) rest (by omega)]
    have harith : t + 15 + 15 * n = t + 15 * (n + 1) := by ring
    rw [harith, List.replicate_succ, List.cons_append]

/-- C4: in the event_generator loop, (i) a 15s drain timeout that does
not reach the ceiling emits exactly one heartbeat and continues with the
inactivity counter increased by 15; (ii) a timeout that brings the
counter to 300 emits the heartbeat and then the synthetic error whose
message says the conversion timed out after 5 minutes of inactivity, and
stops (the remaining drains are never consumed); (iii) an arriving
non-terminal Progress event is emitted and the counter is NOT reset —
the continuation runs with the same counter value; (iv) consequently
fewer than 20 consecutive timeouts yield only heartbeats, and the 20th
consecutive timeout yields the synthetic timeout error as the last
event. -/
theorem c4_heartbeat_inactivity_policy :
    (∀ (ts : String) (rest : List DrainResult) (t : Nat), t + 15 < 300 →
      event_generator_loop (DrainResult.timeout ts :: rest) t =
        SSEEvent.heartbeat ts :: event_generator_loop rest (t + 15)) ∧
    (∀ (ts : String) (rest : List DrainResult) (t : Nat), 300 ≤ t + 15 →
      event_generator_loop (DrainResult.timeout ts :: rest) t =
        [SSEEvent.heartbeat ts, timeoutErrorEvent]) ∧
    (∀ (e : SSEEvent) (rest : List DrainResult) (t : Nat), isTerminalEvent e = false →
      event_generator_loop (DrainResult.got e :: rest) t =
        e :: event_generator_loop rest t) ∧
    (∀ (ts : String) (k : Nat), k ≤ 19 →
      event_generator_loop (List.replicate k (DrainResult.timeout ts)) 0 =
        List.replicate k (SSEEvent.heartbeat ts)) ∧
    (∀ ts : String,
      event_generator_loop (List.replicate 20 (DrainResult.timeout ts)) 0 =
        List.replicate 20 (SSEEvent.heartbeat ts) ++ [timeoutErrorEvent]) := by
  refine ⟨?_, ?_, ?_, ?_, ?_⟩
  · intro ts rest t h
    show (if 300 ≤ t + 15 then _ else _) = _
    rw [if_neg (by omega)]
  · intro ts rest t h
    show (if 300 ≤ t + 15 then _ else _) = _
    rw [if_pos h]
  · intro e rest t h
    show (if isTerminalEvent e = true then _ else _) = _
    rw [h]
    simp
  · intro ts k hk
    have := loop_replicate_timeouts ts k 0 [] (by omega)
    simpa [event_generator_loop] using this
  · intro ts
    have h19 : (List.replicate 20 (DrainResult.timeout ts)) =
        List.replicate 19 (DrainResult.timeout ts) ++ [DrainResult.timeout ts] := by
      rw [← List.replicate_succ']
    rw [h19, loop_replicate_timeouts ts 19 0 [DrainResult.timeout ts] (by omega)]
    show _ ++ (if 300 ≤ 0 + 15 * 19 + 15 then [SSEEvent.heartbeat ts, timeoutErrorEvent]
      else _) = _
    rw [if_pos (by omega)]
    rw [show (20 : Nat) = 19 + 1 by rfl, List.replicate_succ', List.append_assoc]
    rfl

theorem c4_witness :
    (0 : Nat) + 15 < 300 ∧
    event_generator_loop [DrainResult.timeout "t1"] 0 =
      SSEEvent.heartbeat "t1" :: event_generator_loop [] 15 ∧
    300 ≤ (285 : Nat) + 15 ∧
    event_generator_loop [DrainResult.timeout "t2"] 285 =
      [SSEEvent.heartbeat "t2", timeoutErrorEvent] ∧
    isTerminalEvent (SSEEvent.progress 50 "m") = false ∧
    event_generator_loop [DrainResult.got (SSEEvent.progress 50 "m")] 120 =
      SSEEvent.progress 50 "m" :: event_generator_loop [] 120 :=
  ⟨by decide, c4_heartbeat_inactivity_policy.1 "t1" [] 0 (by decide),
   by decide, c4_heartbeat_inactivity_policy.2.1 "t2" [] 285 (by decide),
   by decide, c4_heartbeat_inactivity_policy.2.2.1 (SSEEvent.progress 50 "m") [] 120
     (by decide)⟩

/-! ## MCP `/sse` loop (mcp_convert_generator) -/

/-- A run against a slow worker: three events, each arriving 50 seconds
after the previous drain began — every `wait_for` returns within its
60-second window, yet 150 seconds elapse in total. -/
def slowWorkerDrains : List McpDrain :=
  [ McpDrain.got ⟨McpStatus.running, some "Preparing document for conversion", none⟩ 50,
    McpDrain.got ⟨McpStatus.running, some "Converting content to html", none⟩ 50,
    McpDrain.got ⟨McpStatus.complete, some "<h1>Hi</h1>", none⟩ 50 ]

/-- C3 counterexample: the claim says the surface enforces a 60-second
deadline TOTAL from stream start. On `slowWorkerDrains` every wait
respects the 60-second `wait_for` window, no terminal event exists
within the first 60 seconds, yet the generator emits no synthetic
timeout event, keeps emitting past the 60-second mark, and ends with the
worker's own complete event at 150 seconds. -/
theorem c3_counterexample :
    drainDelaysLe60 slowWorkerDrains = true ∧
    (∀ p ∈ mcp_convert_generator slowWorkerDrains,
      isMcpTerminal p.1 = true → 60 < p.2) ∧
    (∀ p ∈ mcp_convert_generator slowWorkerDrains, p.1 ≠ mcpTimeoutEvent) ∧
    (∃ p ∈ mcp_convert_generator slowWorkerDrains,
      isMcpTerminal p.1 = true ∧ p.2 = 150) := by
  refine ⟨by decide, by decide, by decide, ?_⟩
  refine ⟨(⟨McpStatus.complete, some "<h1>Hi</h1>", none⟩, 150), by decide, by decide⟩

/-- C3 amended: the protocol-wrapped stream surface enforces a
60-second PER-DRAIN (inactivity) deadline with no heartbeats: (i) the
moment a single wait for the next event reaches 60 seconds, the loop
emits the status-tagged synthetic timeout error event and stops — the
remaining drains are never consumed; (ii) a non-terminal event arriving
within the window is emitted and the loop continues, the next wait
getting a fresh 60-second window; (iii) a terminal event arriving within
the window is emitted and the loop stops; (iv) no filler/heartbeat is
ever emitted: every emitted event either came from the task's queue or
is the single synthetic timeout event. -/
theorem c3_per_drain_deadline :
    (∀ (rest : List McpDrain) (now : Nat),
      mcp_convert_loop (McpDrain.timedOut :: rest) now = [(mcpTimeoutEvent, now + 60)]) ∧
    (∀ (e : McpEvent) (d : Nat) (rest : List McpDrain) (now : Nat),
      isMcpTerminal e = false →
      mcp_convert_loop (McpDrain.got e d :: rest) now =
        (e, now + d) :: mcp_convert_loop rest (now + d)) ∧
    (∀ (e : McpEvent) (d : Nat) (rest : List McpDrain) (now : Nat),
      isMcpTerminal e = true →
      mcp_convert_loop (McpDrain.got e d :: rest) now = [(e, now + d)]) ∧
    (∀ (drains : List McpDrain) (now : Nat) (p : McpEvent × Nat),
      p ∈ mcp_convert_loop drains now →
      (∃ d, McpDrain.got p.1 d ∈ drains) ∨ p.1 = mcpTimeoutEvent) := by
  refine ⟨fun rest now => rfl, ?_, ?_, ?_⟩
  · intro e d rest now h
    show (if isMcpTerminal e = true then _ else _) = _
    rw [h]
    simp
  · intro e d rest now h
    show (if isMcpTerminal e = true then _ else _) = _
    rw [h]
    simp
  · intro drains
    induction drains with
    | nil => intro now p hp; simp [mcp_convert_loop] at hp
    | cons dr rest ih =>
      intro now p hp
      cases dr with
      | got e d =>
        by_cases h : isMcpTerminal e = true
        · rw [show mcp_convert_loop (McpDrain.got e d :: rest) now = [(e, now + d)] by
            show (if isMcpTerminal e = true then _ else _) = _; rw [if_pos h]] at hp
          simp at hp
          left
          exact ⟨d, by simp [hp]⟩
        · rw [show mcp_convert_loop (McpDrain.got e d :: rest) now =
              (e, now + d) :: mcp_convert_loop rest (now + d) by
            show (if isMcpTerminal e = true then _ else _) = _; rw [if_neg h]] at hp
          rcases List.mem_cons.mp hp with h1 | h1
          · left
            exact ⟨d, by simp [h1]⟩
          · rcases ih (now + d) p h1 with ⟨d', hd'⟩ | h2
            · exact Or.inl ⟨d', List.mem_cons_of_mem _ hd'⟩
            · exact Or.inr h2
      | timedOut =>
        rw [show mcp_convert_loop (McpDrain.timedOut :: rest) now =
            [(mcpTimeoutEvent, now + 60)] from rfl] at hp
        simp at hp
        right
        simp [hp]

theorem c3_witness :
    mcp_convert_loop [McpDrain.timedOut] 7 = [(mcpTimeoutEvent, 67)] ∧
    isMcpTerminal ⟨McpStatus.running, none, none⟩ = false ∧
    mcp_convert_loop [McpDrain.got ⟨McpStatus.running, none, none⟩ 10] 0 =
      (⟨McpStatus.running, none, none⟩, 10) :: mcp_convert_loop [] 10 ∧
    isMcpTerminal ⟨McpStatus.complete, some "r", none⟩ = true ∧
    mcp_convert_loop [McpDrain.got ⟨McpStatus.complete, some "r", none⟩ 10] 0 =
      [(⟨McpStatus.complete, some "r", none⟩, 10)] :=
  ⟨c3_per_drain_deadline.1 [] 7, by decide,
   c3_per_drain_deadline.2.1 _ 10 [] 0 (by decide), by decide,
   c3_per_drain_deadline.2.2.1 _ 10 [] 0 (by decide)⟩

/-! ## Worker-run lemmas (_process_conversion) -/

lemma case1_spec (env : Env) (inf outf fmt : String) :
    (∀ q ∈ (case1 env inf outf fmt).1.map Prod.fst, q = 50 ∨ q = 75) ∧
    (∀ s, (case1 env inf outf fmt).2.2 = .ok s →
      (case1 env inf outf fmt).1.map Prod.fst = [50, 75]) ∧
    (∀ p c, FsOp.createTemp p c ∉ (case1 env inf outf fmt).2.1) ∧
    (∀ t f i, FsOp.engineText t f i ∉ (case1 env inf outf fmt).2.1) ∧
    (∀ inp f o, FsOp.engineFile inp f o ∈ (case1 env inf outf fmt).2.1 → inp = inf) := by
  by_cases hp : env.pathExists inf = false
  · simp [case1, hp]
  · by_cases hd : dirname outf ≠ "" ∧ env.pathExists (dirname outf) = false
    · rcases hmk : env.makedirsOk (dirname outf) with _ | e <;>
        rcases hcf : env.convert_file inf fmt (some outf) with e' | res <;>
        simp [case1, hp, hd, hmk, hcf] <;> (intros; assumption)
    · rcases hcf : env.convert_file inf fmt (some outf) with e' | res <;>
        simp [case1, hp, hd, hcf] <;> (intros; assumption)

lemma case2_spec (env : Env) (inf fmt : String) :
    (∀ q ∈ (case2 env inf fmt).1.map Prod.fst, q = 50 ∨ q = 75) ∧
    (∀ s, (case2 env inf fmt).2.2 = .ok s →
      (case2 env inf fmt).1.map Prod.fst = [50, 75]) ∧
    (∀ p c, FsOp.createTemp p c ∉ (case2 env inf fmt).2.1) ∧
    (∀ t f i, FsOp.engineText t f i ∉ (case2 env inf fmt).2.1) ∧
    (∀ inp f o, FsOp.engineFile inp f o ∈ (case2 env inf fmt).2.1 → inp = inf) := by
  by_cases hp : env.pathExists inf = false
  · simp [case2, hp]
  · rcases hcf : env.convert_file inf fmt none with e | res <;>
      simp [case2, hp, hcf] <;> (intros; assumption)

lemma case3_spec (env : Env) (contents fmt infmt outf : String) :
    (∀ q ∈ (case3 env contents fmt infmt outf).1.map Prod.fst, q = 50 ∨ q = 75) ∧
    (∀ s, (case3 env contents fmt infmt outf).2.2 = .ok s →
      (case3 env contents fmt infmt outf).1.map Prod.fst = [50, 75]) ∧
    ((case3 env contents fmt infmt outf).2.1.head? =
      some (FsOp.createTemp (env.tempStem ++ "." ++ infmt) contents)) ∧
    (∀ p c, FsOp.createTemp p c ∈ (case3 env contents fmt infmt outf).2.1 →
      p = env.tempStem ++ "." ++ infmt) ∧
    (env.tempWriteOk = none →
      (case3 env contents fmt infmt outf).2.1.getLast? =
        some (FsOp.unlink (env.tempStem ++ "." ++ infmt)) ∧
      FsOp.unlink (env.tempStem ++ "." ++ infmt) ∈
        (case3 env contents fmt infmt outf).2.1) ∧
    (∀ e, env.tempWriteOk = some e →
      case3 env contents fmt infmt outf =
        ([], [FsOp.createTemp (env.tempStem ++ "." ++ infmt) contents], .error e)) := by
  rcases hw : env.tempWriteOk with _ | e0
  · by_cases hd : dirname outf ≠ "" ∧ env.pathExists (dirname outf) = false
    · rcases hmk : env.makedirsOk (dirname outf) with _ | e <;>
        rcases hcf : env.convert_file (env.tempStem ++ "." ++ infmt) fmt (some outf)
          with e' | res <;>
        simp [case3, hw, hd, hmk, hcf]
    · rcases hcf : env.convert_file (env.tempStem ++ "." ++ infmt) fmt (some outf)
        with e' | res <;>
        simp [case3, hw, hd, hcf]
  · simp [case3, hw]

lemma case4_spec (env : Env) (contents : Option String) (fmt infmt : String) :
    (∀ q ∈ (case4 env contents fmt infmt).1.map Prod.fst, q = 50 ∨ q = 75) ∧
    (∀ s, (case4 env contents fmt infmt).2.2 = .ok s →
      (case4 env contents fmt infmt).1.map Prod.fst = [50, 75]) ∧
    (∀ p c, FsOp.createTemp p c ∉ (case4 env contents fmt infmt).2.1) := by
  rcases hct : env.convert_text contents fmt infmt with e | res <;>
    simp [case4, hct]

/-- The body the if/elif chain runs, indexed by the selected mode. -/
def dispatch (env : Env) (r : ConversionRequest) :
    List Call × List FsOp × Except String String :=
  match selectMode r with
  | .fileToFile => case1 env (r.input_file.getD "") (r.output_file.getD "") r.output_format
  | .fileToString => case2 env (r.input_file.getD "") r.output_format
  | .stringToFile =>
    case3 env (r.contents.getD "") r.output_format r.input_format (r.output_file.getD "")
  | .stringToString => case4 env r.contents r.output_format r.input_format

lemma try_eq (env : Env) (r : ConversionRequest) :
    process_conversion_try env r =
      match dispatch env r with
      | (cs, ops, .ok result) =>
        ([(0, "Starting conversion process"), (25, "Preparing document for conversion")]
          ++ cs ++ [(100, "Conversion complete")], ops, Except.ok result)
      | (cs, ops, .error e) =>
        ([(0, "Starting conversion process"), (25, "Preparing document for conversion")]
          ++ cs, ops, Except.error e) := by
  unfold process_conversion_try dispatch selectMode
  cases ha : truthy r.input_file <;> cases hb : truthy r.output_file <;>
    cases hc : truthy r.contents <;> simp [ha, hb, hc]

lemma process_conversion_ops (env : Env) (r : ConversionRequest) :
    (process_conversion env r).ops = (process_conversion_try env r).2.1 := by
  unfold process_conversion
  rcases htry : process_conversion_try env r with ⟨cs, ops, res⟩
  cases res <;> rfl

lemma dispatch_range (env : Env) (r : ConversionRequest) :
    ∀ q ∈ (dispatch env r).1.map Prod.fst, q = 50 ∨ q = 75 := by
  unfold dispatch
  cases selectMode r
  · exact (case1_spec env _ _ _).1
  · exact (case2_spec env _ _).1
  · exact (case3_spec env _ _ _ _).1
  · exact (case4_spec env _ _ _).1

lemma dispatch_ok_calls (env : Env) (r : ConversionRequest) (s : String)
    (h : (dispatch env r).2.2 = .ok s) :
    (dispatch env r).1.map Prod.fst = [50, 75] := by
  unfold dispatch at h ⊢
  cases hsel : selectMode r <;> rw [hsel] at h
  · exact (case1_spec env _ _ _).2.1 s h
  · exact (case2_spec env _ _).2.1 s h
  · exact (case3_spec env _ _ _ _).2.1 s h
  · exact (case4_spec env _ _ _).2.1 s h

lemma try_calls_range (env : Env) (r : ConversionRequest) :
    ∀ q ∈ (process_conversion_try env r).1.map Prod.fst,
      q = 0 ∨ q = 25 ∨ q = 50 ∨ q = 75 ∨ q = 100 := by
  rw [try_eq]
  rcases hd : dispatch env r with ⟨cs, ops, res⟩
  have hrange : ∀ q ∈ cs.map Prod.fst, q = 50 ∨ q = 75 := by
    have h := dispatch_range env r
    rw [hd] at h
    exact h
  cases res with
  | error e =>
    intro q hq
    simp at hq
    rcases hq with rfl | rfl | hq
    · tauto
    · tauto
    · rcases hq with ⟨x, hx⟩
      rcases hrange q (List.mem_map_of_mem Prod.fst hx) with rfl | rfl <;> tauto
  | ok result =>
    intro q hq
    simp at hq
    rcases hq with rfl | rfl | hq | rfl
    · tauto
    · tauto
    · rcases hq with ⟨x, hx⟩
      rcases hrange q (List.mem_map_of_mem Prod.fst hx) with rfl | rfl <;> tauto
    · tauto

lemma pc_eq (env : Env) (r : ConversionRequest) :
    process_conversion env r =
      match process_conversion_try env r with
      | (cs, ops, .ok result) => ⟨cs, ops, .ok result⟩
      | (cs, ops, .error e) =>
        ⟨cs ++ [(-1, "Error: " ++ e)], ops,
         .error ("Error during conversion: " ++ e)⟩ := rfl

lemma try_ok_calls (env : Env) (r : ConversionRequest) (s : String)
    (h : (process_conversion_try env r).2.2 = .ok s) :
    (process_conversion_try env r).1.map Prod.fst = [0, 25, 50, 75, 100] := by
  rw [try_eq] at h ⊢
  rcases hd : dispatch env r with ⟨cs, ops, res⟩
  rw [hd] at h
  cases res with
  | error e => simp at h
  | ok result =>
    have h2 : (dispatch env r).2.2 = Except.ok result := by rw [hd]
    have h3 := dispatch_ok_calls env r result h2
    rw [hd] at h3
    simp at h3
    simp [h3]

/-- C2: whenever the execution body of `_process_conversion` returns
normally (which in the code happens exactly when the selected mode's
engine call succeeded, since no failure point follows the engine call),
the progress callback was invoked with exactly the percentage sequence
0, 25, 50, 75, 100 in that order — non-decreasing, no step skipped, the
terminal 100 emitted exactly once, and the body returns the result
string `s`. -/
theorem c2_success_progress_sequence (env : Env) (r : ConversionRequest) (s : String)
    (h : (process_conversion env r).result = .ok s) :
    (process_conversion env r).calls.map Prod.fst = [0, 25, 50, 75, 100] := by
  rw [pc_eq] at h ⊢
  rcases htry : process_conversion_try env r with ⟨cs, ops, res⟩
  rw [htry] at h
  cases res with
  | error e => simp [RunResult.result] at h
  | ok result =>
    show cs.map Prod.fst = [0, 25, 50, 75, 100]
    have h2 : (process_conversion_try env r).2.2 = .ok result := by rw [htry]
    have h3 := try_ok_calls env r result h2
    rw [htry] at h3
    exact h3

theorem c2_witness :
    (process_conversion envOkAll reqSS).result = Except.ok "out:# Hi" ∧
    (process_conversion envOkAll reqSS).calls.map Prod.fst = [0, 25, 50, 75, 100] :=
  ⟨by decide, c2_success_progress_sequence envOkAll reqSS "out:# Hi" (by decide)⟩

/-- C5: whenever the execution body fails (missing input file, engine
failure, directory-creation failure), the `except` clause invokes the
progress callback exactly once with percentage -1 — as the last call,
with message `"Error: <message>"` — and re-raises
`ValueError("Error during conversion: <message>")`, so the task's handle
resolves to an error. No call before it carries -1 (the failure is
reported once, not retried). -/
theorem c5_failure_reports_once (env : Env) (r : ConversionRequest) (e : String)
    (h : (process_conversion env r).result = .error e) :
    ∃ m cs', e = "Error during conversion: " ++ m ∧
      (process_conversion env r).calls = cs' ++ [(-1, "Error: " ++ m)] ∧
      ∀ c ∈ cs', c.1 ≠ -1 := by
  rw [pc_eq] at h ⊢
  rcases htry : process_conversion_try env r with ⟨cs, ops, res⟩
  rw [htry] at h
  have hr := try_calls_range env r
  rw [htry] at hr
  cases res with
  | ok result => simp [RunResult.result] at h
  | error e0 =>
    simp [RunResult.result] at h
    refine ⟨e0, cs, h.symm, rfl, ?_⟩
    intro c hc
    have hq := hr c.1 (List.mem_map_of_mem Prod.fst hc)
    rcases hq with h' | h' | h' | h' | h' <;> simp [h']

def envFailEngine : Env :=
  { pathExists := fun _ => true
    makedirsOk := fun _ => none
    convert_file := fun _ _ _ => .error "pandoc died"
    convert_text := fun _ _ _ => .error "pandoc died"
    tempStem := "/tmp/tmpx"
    tempWriteOk := none }

theorem c5_witness :
    (process_conversion envFailEngine reqSS).result =
      Except.error "Error during conversion: pandoc died" ∧
    (∃ m cs', "Error during conversion: pandoc died" = "Error during conversion: " ++ m ∧
      (process_conversion envFailEngine reqSS).calls = cs' ++ [(-1, "Error: " ++ m)] ∧
      ∀ c ∈ cs', c.1 ≠ -1) :=
  ⟨by decide, c5_failure_reports_once envFailEngine reqSS _ (by decide)⟩

lemma try_ops_eq (env : Env) (r : ConversionRequest) :
    (process_conversion_try env r).2.1 = (dispatch env r).2.1 := by
  rw [try_eq]
  rcases hd : dispatch env r with ⟨cs, ops, res⟩
  cases res <;> rfl

lemma pc_ops_eq (env : Env) (r : ConversionRequest) :
    (process_conversion env r).ops = (dispatch env r).2.1 :=
  (process_conversion_ops env r).trans (try_ops_eq env r)

lemma dispatch_temp (env : Env) (r : ConversionRequest) (hw : env.tempWriteOk = none) :
    ∀ p c, FsOp.createTemp p c ∈ (dispatch env r).2.1 →
      FsOp.unlink p ∈ (dispatch env r).2.1 := by
  unfold dispatch
  cases hsel : selectMode r
  · intro p c hm
    exact absurd hm ((case1_spec env _ _ _).2.2.1 p c)
  · intro p c hm
    exact absurd hm ((case2_spec env _ _).2.2.1 p c)
  · intro p c hm
    have hp := (case3_spec env _ _ _ _).2.2.2.1 p c hm
    rw [hp]
    exact ((case3_spec env _ _ _ _).2.2.2.2.1 hw).2
  · intro p c hm
    exact absurd hm ((case4_spec env _ _ _).2.2 p c)

def reqSF : ConversionRequest :=
  ⟨some "# Hi", none, "markdown", "pdf", some "/out/doc.pdf"⟩

/-- An environment whose only failure is the `temp.write` into the
just-created temp file (e.g. the disk filling up), the IOFailure class
the spec's error taxonomy names as "temp file write failure". -/
def envFailWrite : Env :=
  { pathExists := fun _ => true
    makedirsOk := fun _ => none
    convert_file := fun _ _ _ => .ok "unused"
    convert_text := fun _ _ _ => .ok "unused"
    tempStem := "/tmp/tmpx"
    tempWriteOk := some "No space left on device" }

/-- C7 counterexample: the claim says the temporary staging file is
removed on EVERY exit path of the execution body, so that no temp file
persists after the task ends. In string-to-file mode, when the write
into the just-created temp file raises, the exception propagates before
the `try`/`finally` guarding the unlink is entered: the run's operations
consist of the temp-file creation and nothing else — no unlink ever
happens, and the temp file persists — while the body still reports the
failure (terminal -1 callback) and raises. -/
theorem c7_counterexample :
    selectMode reqSF = Mode.stringToFile ∧
    FsOp.createTemp "/tmp/tmpx.markdown" "# Hi" ∈
      (process_conversion envFailWrite reqSF).ops ∧
    (process_conversion envFailWrite reqSF).ops =
      [FsOp.createTemp "/tmp/tmpx.markdown" "# Hi"] ∧
    FsOp.unlink "/tmp/tmpx.markdown" ∉ (process_conversion envFailWrite reqSF).ops ∧
    (process_conversion envFailWrite reqSF).result =
      Except.error "Error during conversion: No space left on device" ∧
    (process_conversion envFailWrite reqSF).calls.getLast? =
      some (-1, "Error: No space left on device") := by decide

/-- C7 amended: on every exit path of the execution body ON WHICH THE
MATERIALIZING WRITE SUCCEEDS — the success path, a directory-creation
failure, an engine failure — any created temporary staging file is
removed, because the unlink sits in a `finally` clause entered right
after materialization; in string-to-file mode the run's first filesystem
operation is then creating the temp file holding the request's contents
and its last is unlinking that same path. If instead the write into the
just-created temp file raises, the body reports the failure and raises,
but the `finally` scope was never entered and the temp file persists
(its creation is the run's only filesystem operation). -/
theorem c7_temp_cleanup_after_materialization (env : Env) (r : ConversionRequest) :
    (env.tempWriteOk = none →
      ∀ p c, FsOp.createTemp p c ∈ (process_conversion env r).ops →
        FsOp.unlink p ∈ (process_conversion env r).ops) ∧
    (env.tempWriteOk = none → selectMode r = Mode.stringToFile →
      (process_conversion env r).ops.head? =
        some (FsOp.createTemp (env.tempStem ++ "." ++ r.input_format) (r.contents.getD "")) ∧
      (process_conversion env r).ops.getLast? =
        some (FsOp.unlink (env.tempStem ++ "." ++ r.input_format))) ∧
    (∀ e, env.tempWriteOk = some e → selectMode r = Mode.stringToFile →
      (process_conversion env r).ops =
        [FsOp.createTemp (env.tempStem ++ "." ++ r.input_format) (r.contents.getD "")] ∧
      (process_conversion env r).result =
        .error ("Error during conversion: " ++ e)) := by
  refine ⟨?_, ?_, ?_⟩
  · intro hw
    rw [pc_ops_eq]
    exact dispatch_temp env r hw
  · intro hw hmode
    rw [pc_ops_eq]
    unfold dispatch
    rw [hmode]
    exact ⟨(case3_spec env _ _ _ _).2.2.1, ((case3_spec env _ _ _ _).2.2.2.2.1 hw).1⟩
  · intro e hw hmode
    have hd3 : dispatch env r =
        ([], [FsOp.createTemp (env.tempStem ++ "." ++ r.input_format)
          (r.contents.getD "")], Except.error e) := by
      unfold dispatch
      rw [hmode]
      exact (case3_spec env _ _ _ _).2.2.2.2.2 e hw
    constructor
    · rw [pc_ops_eq, hd3]
    · rw [pc_eq, try_eq, hd3]

theorem c7_witness :
    envFailEngine.tempWriteOk = none ∧
    FsOp.unlink "/tmp/tmpx.markdown" ∈ (process_conversion envFailEngine reqSF).ops ∧
    selectMode reqSF = Mode.stringToFile ∧
    (process_conversion envFailEngine reqSF).ops.head? =
      some (FsOp.createTemp ("/tmp/tmpx" ++ "." ++ "markdown") "# Hi") ∧
    (process_conversion envFailEngine reqSF).ops.getLast? =
      some (FsOp.unlink ("/tmp/tmpx" ++ "." ++ "markdown")) ∧
    (process_conversion envFailWrite reqSF).ops =
      [FsOp.createTemp ("/tmp/tmpx" ++ "." ++ "markdown") "# Hi"] :=
  ⟨rfl,
   (c7_temp_cleanup_after_materialization envFailEngine reqSF).1 rfl
     "/tmp/tmpx.markdown" "# Hi" (by decide),
   by decide,
   ((c7_temp_cleanup_after_materialization envFailEngine reqSF).2.1 rfl (by decide)).1,
   ((c7_temp_cleanup_after_materialization envFailEngine reqSF).2.1 rfl (by decide)).2,
   ((c7_temp_cleanup_after_materialization envFailWrite reqSF).2.2
     "No space left on device" rfl (by decide)).1⟩

/-- C10: mode selection gives (truthy) file input strict precedence over
string input, dispatching in the fixed order file→file, file→string,
string→file, string→string (the default branch); whenever `input_file`
is truthy — in particular when both `input_file` and `contents` are set
to non-empty strings — a file-based mode runs: the engine is never
handed the request's `contents` (no string entry point is invoked) and
every engine file call reads exactly the request's `input_file`. -/
theorem c10_file_input_precedence :
    (∀ r : ConversionRequest, truthy r.input_file = true → truthy r.output_file = true →
      selectMode r = Mode.fileToFile) ∧
    (∀ r : ConversionRequest, truthy r.input_file = true → truthy r.output_file = false →
      selectMode r = Mode.fileToString) ∧
    (∀ r : ConversionRequest, truthy r.input_file = false → truthy r.contents = true →
      truthy r.output_file = true → selectMode r = Mode.stringToFile) ∧
    (∀ r : ConversionRequest, truthy r.input_file = false →
      (truthy r.contents = false ∨ truthy r.output_file = false) →
      selectMode r = Mode.stringToString) ∧
    (∀ (env : Env) (r : ConversionRequest), truthy r.input_file = true →
      (∀ t f i, FsOp.engineText t f i ∉ (process_conversion env r).ops) ∧
      (∀ inp f o, FsOp.engineFile inp f o ∈ (process_conversion env r).ops →
        inp = r.input_file.getD "")) := by
  refine ⟨?_, ?_, ?_, ?_, ?_⟩
  · intro r h1 h2; simp [selectMode, h1, h2]
  · intro r h1 h2; simp [selectMode, h1, h2]
  · intro r h1 h2 h3; simp [selectMode, h1, h2, h3]
  · intro r h1 h2
    rcases h2 with h2 | h2 <;> simp [selectMode, h1, h2]
  · intro env r h1
    rw [pc_ops_eq]
    unfold dispatch
    by_cases h2 : truthy r.output_file = true
    · rw [show selectMode r = Mode.fileToFile by simp [selectMode, h1, h2]]
      exact ⟨(case1_spec env _ _ _).2.2.2.1, (case1_spec env _ _ _).2.2.2.2⟩
    · rw [show selectMode r = Mode.fileToString by
        simp [selectMode, h1, Bool.eq_false_iff.mpr h2]]
      exact ⟨(case2_spec env _ _).2.2.2.1, (case2_spec env _ _).2.2.2.2⟩

def reqBoth : ConversionRequest :=
  ⟨some "# Hi", some "/in/doc.md", "markdown", "html", some "/out/doc.html"⟩

theorem c10_witness :
    truthy reqBoth.input_file = true ∧
    truthy reqBoth.contents = true ∧
    selectMode reqBoth = Mode.fileToFile ∧
    FsOp.engineText (some "# Hi") "html" "markdown" ∉
      (process_conversion envOkAll reqBoth).ops ∧
    FsOp.engineFile "/in/doc.md" "html" (some "/out/doc.html") ∈
      (process_conversion envOkAll reqBoth).ops ∧
    "/in/doc.md" = reqBoth.input_file.getD "" :=
  ⟨by decide, by decide,
   c10_file_input_precedence.1 reqBoth (by decide) (by decide),
   (c10_file_input_precedence.2.2.2.2 envOkAll reqBoth (by decide)).1
     (some "# Hi") "html" "markdown",
   by decide,
   (c10_file_input_precedence.2.2.2.2 envOkAll reqBoth (by decide)).2
     "/in/doc.md" "html" (some "/out/doc.html") (by decide)⟩

/-! ## Exactly-one-terminal lemmas -/

lemma loop_wellTerminated (drains : List DrainResult) (t : Nat) :
    ∃ pre, (∀ e ∈ pre, isTerminalEvent e = false) ∧
      (event_generator_loop drains t = pre ∨
       ∃ e, isTerminalEvent e = true ∧ event_generator_loop drains t = pre ++ [e]) := by
  induction drains generalizing t with
  | nil => exact ⟨[], by simp, Or.inl rfl⟩
  | cons d rest ih =>
    cases d with
    | got e =>
      cases he : isTerminalEvent e
      · rcases ih t with ⟨pre, hpre, hor⟩
        refine ⟨e :: pre, ?_, ?_⟩
        · intro x hx
          rcases List.mem_cons.mp hx with rfl | hx
          · exact he
          · exact hpre x hx
        · rcases hor with h | ⟨e', he', hh⟩
          · left
            show (if isTerminalEvent e = true then _ else _) = _
            rw [he]
            simp [h]
          · right
            refine ⟨e', he', ?_⟩
            show (if isTerminalEvent e = true then _ else _) = _
            rw [he]
            simp [hh]
      · refine ⟨[], by simp, Or.inr ⟨e, he, ?_⟩⟩
        show (if isTerminalEvent e = true then _ else _) = _
        rw [he]
        simp
    | timeout ts =>
      by_cases ht : 300 ≤ t + 15
      · refine ⟨[SSEEvent.heartbeat ts], ?_, Or.inr ⟨timeoutErrorEvent, rfl, ?_⟩⟩
        · intro x hx
          simp at hx
          rw [hx]
          rfl
        · show (if 300 ≤ t + 15 then _ else _) = _
          rw [if_pos ht]
          rfl
      · rcases ih (t + 15) with ⟨pre, hpre, hor⟩
        refine ⟨SSEEvent.heartbeat ts :: pre, ?_, ?_⟩
        · intro x hx
          rcases List.mem_cons.mp hx with rfl | hx
          · rfl
          · exact hpre x hx
        · rcases hor with h | ⟨e', he', hh⟩
          · left
            show (if 300 ≤ t + 15 then _ else _) = _
            rw [if_neg ht]
            simp [h]
          · right
            refine ⟨e', he', ?_⟩
            show (if 300 ≤ t + 15 then _ else _) = _
            rw [if_neg ht]
            simp [hh]

lemma loop_terminates (drains : List DrainResult) (t : Nat)
    (h : (∃ e, DrainResult.got e ∈ drains ∧ isTerminalEvent e = true) ∨
         (1 ≤ (drains.filter isTimeoutDrain).length ∧
          300 ≤ t + 15 * (drains.filter isTimeoutDrain).length)) :
    ∃ e ∈ event_generator_loop drains t, isTerminalEvent e = true := by
  induction drains generalizing t with
  | nil =>
    rcases h with ⟨e, he, _⟩ | ⟨h1, _⟩
    · simp at he
    · simp at h1
  | cons d rest ih =>
    cases d with
    | got e =>
      cases he : isTerminalEvent e
      · have hloop : event_generator_loop (DrainResult.got e :: rest) t =
            e :: event_generator_loop rest t := by
          show (if isTerminalEvent e = true then _ else _) = _
          rw [he]
          simp
        have h' : (∃ e', DrainResult.got e' ∈ rest ∧ isTerminalEvent e' = true) ∨
            (1 ≤ (rest.filter isTimeoutDrain).length ∧
             300 ≤ t + 15 * (rest.filter isTimeoutDrain).length) := by
          rcases h with ⟨e', he', ht'⟩ | hr
          · left
            rcases List.mem_cons.mp he' with heq | hm
            · cases DrainResult.got.inj heq
              rw [he] at ht'
              cases ht'
            · exact ⟨e', hm, ht'⟩
          · right
            have hflt : (DrainResult.got e :: rest).filter isTimeoutDrain =
                rest.filter isTimeoutDrain := by
              simp [List.filter_cons, isTimeoutDrain]
            rw [hflt] at hr
            exact hr
        rcases ih t h' with ⟨e', hm, ht'⟩
        exact ⟨e', by rw [hloop]; exact List.mem_cons_of_mem _ hm, ht'⟩
      · refine ⟨e, ?_, he⟩
        have hloop : event_generator_loop (DrainResult.got e :: rest) t = [e] := by
          show (if isTerminalEvent e = true then _ else _) = _
          rw [he]
          simp
        rw [hloop]
        simp
    | timeout ts =>
      by_cases hcl : 300 ≤ t + 15
      · refine ⟨timeoutErrorEvent, ?_, rfl⟩
        have hloop : event_generator_loop (DrainResult.timeout ts :: rest) t =
            [SSEEvent.heartbeat ts, timeoutErrorEvent] := by
          show (if 300 ≤ t + 15 then _ else _) = _
          rw [if_pos hcl]
        rw [hloop]
        simp
      · have hloop : event_generator_loop (DrainResult.timeout ts :: rest) t =
            SSEEvent.heartbeat ts :: event_generator_loop rest (t + 15) := by
          show (if 300 ≤ t + 15 then _ else _) = _
          rw [if_neg hcl]
        have hflt : (DrainResult.timeout ts :: rest).filter isTimeoutDrain =
            DrainResult.timeout ts :: rest.filter isTimeoutDrain := by
          simp [List.filter_cons, isTimeoutDrain]
        have h' : (∃ e', DrainResult.got e' ∈ rest ∧ isTerminalEvent e' = true) ∨
            (1 ≤ (rest.filter isTimeoutDrain).length ∧
             300 ≤ (t + 15) + 15 * (rest.filter isTimeoutDrain).length) := by
          rcases h with ⟨e', he', ht'⟩ | ⟨h1, h2⟩
          · left
            rcases List.mem_cons.mp he' with heq | hm
            · exact DrainResult.noConfusion heq
            · exact ⟨e', hm, ht'⟩
          · right
            rw [hflt] at h2
            simp only [List.length_cons] at h2
            exact ⟨by omega, by omega⟩
        rcases ih (t + 15) h' with ⟨e', hm, ht'⟩
        exact ⟨e', by rw [hloop]; exact List.mem_cons_of_mem _ hm, ht'⟩

/-- C1: exactly one terminal event per task, and nothing after it.
(i) Every stream output is a list of non-terminal events optionally
followed by ONE terminal event — so no event (heartbeats included)
follows a terminal event, because the loop stops immediately after
emitting it. (ii) When the drains supply the worker's terminal event or
at least 20 drain timeouts (= the 300s inactivity ceiling), the output
contains exactly one terminal event — either the worker's own or the
synthetic timeout error, never both. (iii) On the worker side, every run
of `_process_conversion` invokes the callback with exactly one terminal
percentage (100 or -1), as its last invocation. (iv) The stream
callback maps a call to a terminal (complete/error) queue event exactly
when its percentage is the terminal 100 or -1. -/
theorem c1_exactly_one_terminal :
    (∀ drains : List DrainResult, ∃ pre,
      (∀ e ∈ pre, isTerminalEvent e = false) ∧
      (event_generator drains = pre ∨
       ∃ e, isTerminalEvent e = true ∧ event_generator drains = pre ++ [e])) ∧
    (∀ drains : List DrainResult,
      (∃ e, DrainResult.got e ∈ drains ∧ isTerminalEvent e = true) ∨
        20 ≤ (drains.filter isTimeoutDrain).length →
      ((event_generator drains).filter isTerminalEvent).length = 1) ∧
    (∀ (env : Env) (r : ConversionRequest), ∃ cs' p m',
      (process_conversion env r).calls = cs' ++ [(p, m')] ∧ (p = 100 ∨ p = -1) ∧
      ∀ c ∈ cs', c.1 ≠ 100 ∧ c.1 ≠ -1) ∧
    (∀ (p : Int) (m : String),
      isTerminalEvent (callbackEvent p m) = true ↔ (p = 100 ∨ p = -1)) := by
  refine ⟨?_, ?_, ?_, ?_⟩
  · intro drains
    rcases loop_wellTerminated drains 0 with ⟨pre, hpre, hor⟩
    refine ⟨SSEEvent.progress 0 "Starting conversion..." :: pre, ?_, ?_⟩
    · intro e he
      rcases List.mem_cons.mp he with rfl | he
      · rfl
      · exact hpre e he
    · unfold event_generator
      rcases hor with h | ⟨e, he, hh⟩
      · left
        rw [h]
      · right
        exact ⟨e, he, by rw [hh]; rfl⟩
  · intro drains h
    have hex : ∃ e ∈ event_generator_loop drains 0, isTerminalEvent e = true := by
      apply loop_terminates drains 0
      rcases h with h | h
      · exact Or.inl h
      · exact Or.inr ⟨by omega, by omega⟩
    rcases loop_wellTerminated drains 0 with ⟨pre, hpre, hor⟩
    have hfpre : pre.filter isTerminalEvent = [] := by
      rw [List.filter_eq_nil_iff]
      intro a ha
      simp [hpre a ha]
    unfold event_generator
    have hcons : List.filter isTerminalEvent
        (SSEEvent.progress 0 "Starting conversion..." :: event_generator_loop drains 0) =
        List.filter isTerminalEvent (event_generator_loop drains 0) := by
      simp [isTerminalEvent]
    rw [hcons]
    rcases hor with h0 | ⟨e, he, hh⟩
    · rcases hex with ⟨e, hm, ht⟩
      rw [h0] at hm
      exact absurd ht (by simp [hpre e hm])
    · rw [hh, List.filter_append, hfpre]
      simp [he]
  · intro env r
    rw [pc_eq, try_eq]
    have hrange := dispatch_range env r
    rcases hd : dispatch env r with ⟨bcs, bops, bres⟩
    rw [hd] at hrange
    have hmem : ∀ c, c ∈ (0, "Starting conversion process") ::
        (25, "Preparing document for conversion") :: bcs →
        c.1 ≠ 100 ∧ c.1 ≠ -1 := by
      intro c hc
      rcases List.mem_cons.mp hc with rfl | hc
      · exact ⟨by decide, by decide⟩
      · rcases List.mem_cons.mp hc with rfl | hc
        · exact ⟨by decide, by decide⟩
        · rcases hrange c.1 (List.mem_map_of_mem Prod.fst hc) with h5 | h5 <;>
            exact ⟨by rw [h5]; decide, by rw [h5]; decide⟩
    cases bres with
    | ok result =>
      refine ⟨(0, "Starting conversion process") ::
        (25, "Preparing document for conversion") :: bcs, 100, "Conversion complete",
        by simp, Or.inl rfl, hmem⟩
    | error e0 =>
      refine ⟨(0, "Starting conversion process") ::
        (25, "Preparing document for conversion") :: bcs, -1, "Error: " ++ e0,
        rfl, Or.inr rfl, hmem⟩
  · intro p m
    by_cases h1 : p = 100
    · simp [callbackEvent, isTerminalEvent, h1]
    · by_cases h2 : p = -1 <;> simp [callbackEvent, isTerminalEvent, h1, h2]

theorem c1_witness :
    ((event_generator [DrainResult.got (SSEEvent.complete "Conversion complete" "r")]).filter
      isTerminalEvent).length = 1 :=
  c1_exactly_one_terminal.2.1
    [DrainResult.got (SSEEvent.complete "Conversion complete" "r")]
    (Or.inl ⟨SSEEvent.complete "Conversion complete" "r", by decide, rfl⟩)

/-! ## Pool scheduler lemmas -/

lemma poolStep_running_le {N : Nat} {s s' : PoolState} (h : PoolStep N s s')
    (hs : s.running.length ≤ N) : s'.running.length ≤ N := by
  cases h with
  | start t pending running done hlt => simpa using hlt
  | finish t pending running done hmem =>
    simp only
    have h1 := List.length_erase_of_mem hmem
    simp only at hs
    omega

lemma pool_running_le (M N : Nat) (s : PoolState)
    (h : PoolReachable N (initPool M) s) : s.running.length ≤ N := by
  induction h with
  | refl => simp [initPool]
  | tail h1 hstep ih => exact poolStep_running_le hstep ih

lemma poolStep_measure {N : Nat} {s s' : PoolState} (h : PoolStep N s s') :
    poolMeasure s' < poolMeasure s := by
  cases h with
  | start t pending running done hlt =>
    simp [poolMeasure]
    omega
  | finish t pending running done hmem =>
    have h1 := List.length_erase_of_mem hmem
    have h2 := List.length_pos_of_mem hmem
    simp [poolMeasure, h1]
    omega

lemma pool_perm (M N : Nat) (s : PoolState) (h : PoolReachable N (initPool M) s) :
    (s.pending ++ s.running ++ s.done).Perm (List.range M) := by
  induction h with
  | refl => simp [initPool]
  | tail h1 hstep ih =>
    refine List.Perm.trans ?_ ih
    cases hstep with
    | start t pending running done hlt =>
      exact List.Perm.append_right done List.perm_middle
    | finish t pending running done hmem =>
      have h1 : running.Perm (t :: running.erase t) := List.perm_cons_erase hmem
      rw [List.append_assoc, List.append_assoc]
      apply List.Perm.append_left
      refine List.Perm.trans List.perm_middle ?_
      exact List.Perm.append_right done h1.symm

lemma pool_no_deadlock (N : Nat) (hN : 0 < N) (pending running done : List Nat)
    (hp : pending ≠ [] ∨ running ≠ []) :
    ∃ s', PoolStep N ⟨pending, running, done⟩ s' := by
  cases running with
  | cons t rest => exact ⟨_, PoolStep.finish t pending (t :: rest) done (by simp)⟩
  | nil =>
    cases pending with
    | nil => simp at hp
    | cons u urest =>
      exact ⟨_, PoolStep.start u urest [] done (by simpa using hN)⟩

/-- C9: the pool bounds concurrency and completes every submitted task.
With the executor's contract embedded as the scheduler `PoolStep` —
start a pending task only when fewer than `N` bodies run, finish a
running body — (i) the default bound constructed by
`WorkerPool.__init__` for the global pool is 4; (ii) every state
reachable from `M` submitted tasks has at most `N` conversion bodies
executing; (iii) every step strictly decreases a finite measure, so no
infinite execution exists and every maximal run ends in a stuck state;
(iv) every reachable stuck state has nothing pending or running and its
finished set is exactly the `M` submitted tasks — i.e. all `M` tasks
eventually complete. -/
theorem c9_bounded_concurrency (M N : Nat) (hN : 0 < N) :
    defaultMaxWorkers = 4 ∧
    (∀ s, PoolReachable N (initPool M) s → s.running.length ≤ N) ∧
    (∀ s s', PoolStep N s s' → poolMeasure s' < poolMeasure s) ∧
    (∀ s, PoolReachable N (initPool M) s → (∀ s', ¬ PoolStep N s s') →
      s.pending = [] ∧ s.running = [] ∧ s.done.Perm (List.range M)) := by
  refine ⟨rfl, ?_, ?_, ?_⟩
  · intro s h
    exact pool_running_le M N s h
  · intro s s' h
    exact poolStep_measure h
  · intro s hreach hstuck
    have hperm := pool_perm M N s hreach
    obtain ⟨pending, running, done⟩ := s
    have hboth : pending = [] ∧ running = [] := by
      by_contra hcon
      have hne : pending ≠ [] ∨ running ≠ [] := by tauto
      rcases pool_no_deadlock N hN pending running done hne with ⟨s', hs'⟩
      exact hstuck s' hs'
    rcases hboth with ⟨h1, h2⟩
    subst h1
    subst h2
    simp only [List.nil_append] at hperm
    exact ⟨rfl, rfl, hperm⟩

theorem c9_witness :
    0 < 4 ∧
    (defaultMaxWorkers = 4 ∧
     (∀ s, PoolReachable 4 (initPool 6) s → s.running.length ≤ 4) ∧
     (∀ s s', PoolStep 4 s s' → poolMeasure s' < poolMeasure s) ∧
     (∀ s, PoolReachable 4 (initPool 6) s → (∀ s', ¬ PoolStep 4 s s') →
       s.pending = [] ∧ s.running = [] ∧ s.done.Perm (List.range 6))) :=
  ⟨by decide, c9_bounded_concurrency 6 4 (by decide)⟩

end FastMcpPandoc
